import Mathlib

/-!
Shallow embedding of `backup.py` (hukenovs/github_backup): the `GitHubSaver`
class, its GitHub REST client, the fork filter, the JSON metadata exporter,
the zip downloader and the clone invoker.  HTTP is modelled as an oracle
`World : String → HttpResponse`; Python exceptions are modelled with
`Except PyErr`; the local filesystem is `FS : String → Option (List Nat)`
(path → file bytes).
-/

set_option autoImplicit false

namespace GithubBackup

/-- JSON values as handled by the script (`response.json()` results and the
dictionaries it builds).  Numbers are modelled as integers, which covers the
fields the script touches (`id` etc.). -/
inductive Json where
  | null : Json
  | bool : Bool → Json
  | num : Int → Json
  | str : String → Json
  | arr : List Json → Json
  | obj : List (String × Json) → Json
deriving Repr

/-- Python exceptions that the embedded code can raise. -/
inductive PyErr where
  /-- `KeyError` from `d[key]` on a dict missing the key. -/
  | keyError : String → PyErr
  /-- `TypeError`, e.g. subscripting a non-dict with a string key, iterating a
  non-iterable, or calling the non-callable builtin `NotImplemented`. -/
  | typeError : PyErr
  /-- `raise Exception(msg)`. -/
  | exception : String → PyErr
deriving Repr, DecidableEq

@[simp] theorem exceptBind_ok {ε : Type _} {α β : Type _} (a : α) (f : α → Except ε β) :
    (Except.ok a >>= f : Except ε β) = f a := rfl

@[simp] theorem exceptBind_error {ε : Type _} {α β : Type _} (e : ε) (f : α → Except ε β) :
    ((Except.error e : Except ε α) >>= f : Except ε β) = Except.error e := rfl

@[simp] theorem exceptPure_eq {ε : Type _} {α : Type _} (a : α) :
    (pure a : Except ε α) = Except.ok a := rfl

/-- Python truthiness (`if x:`) on the JSON values the script tests:
`None`, `False`, `0`, `""`, `[]` and `{}` are falsy. -/
def Json.truthy : Json → Bool
  | .null => false
  | .bool b => b
  | .num n => n != 0
  | .str s => s != ""
  | .arr l => !l.isEmpty
  | .obj l => !l.isEmpty

/-- Python `value[key]` with a string key: a dict yields the value or raises
`KeyError`; any non-dict raises `TypeError`. -/
def Json.getKey : Json → String → Except PyErr Json
  | .obj kvs, k =>
    match kvs.lookup k with
    | some v => .ok v
    | none => .error (.keyError k)
  | _, _ => .error .typeError

/-- Total variant of `Json.getKey` used only to *state* theorems (`null` on
failure); the executable embedding always goes through `Json.getKey`. -/
def Json.getD (j : Json) (k : String) : Json :=
  match j.getKey k with
  | .ok v => v
  | .error _ => .null

/-- Python `for x in value:` on an API response.  The script only ever
iterates JSON arrays; every non-array that reaches one of its loops ends in a
`TypeError` (either at the `for` itself or at the string-subscript of the
first element), which this collapses into one `TypeError`. -/
def Json.iter : Json → Except PyErr (List Json)
  | .arr l => .ok l
  | _ => .error .typeError

/-- Python `str(value)` requirement at API boundaries (`os.path.join`,
`os.path.basename` raise `TypeError` on non-strings). -/
def Json.asString : Json → Except PyErr String
  | .str s => .ok s
  | _ => .error .typeError

/-- Character-list prefix test (`startsWithChars pat s` ⟺ `pat` is an initial
segment of `s`). -/
def startsWithChars : List Char → List Char → Bool
  | [], _ => true
  | _ :: _, [] => false
  | p :: ps, c :: cs => p == c && startsWithChars ps cs

/-- Python `s.startswith(p)`. -/
def pyStartsWith (s p : String) : Bool := startsWithChars p.data s.data

/-- Python `s.endswith(p)`. -/
def pyEndsWith (s p : String) : Bool := startsWithChars p.data.reverse s.data.reverse

/-- `os.path.join(a, b)` for the POSIX paths/URLs the script feeds it. -/
def pathJoin (a b : String) : String :=
  if pyStartsWith b "/" then b
  else if a = "" ∨ pyEndsWith a "/" then a ++ b
  else a ++ "/" ++ b

/-- `os.path.basename`: everything after the last `/`. -/
def basename (s : String) : String :=
  ⟨(s.data.reverse.takeWhile (fun c => c ≠ '/')).reverse⟩

/-- `os.path.splitext` on a basename: split at the last dot, except when every
character before that dot is itself a dot. -/
def splitext (s : String) : String × String :=
  let cs := s.data
  let extRev := cs.reverse.takeWhile (fun c => c ≠ '.')
  if extRev.length = cs.length then (s, "")
  else
    let rootLen := cs.length - extRev.length - 1
    let root := cs.take rootLen
    if root.all (fun c => c = '.') then (s, "")
    else (⟨root⟩, ⟨cs.drop rootLen⟩)

/-- Two-space indentation padding used by `json.dump(..., indent=2)`. -/
def spaces (n : Nat) : String := ⟨List.replicate n ' '⟩

/-- Lower-case hexadecimal digit. -/
def hexDigit (n : Nat) : Char :=
  if n < 10 then Char.ofNat (48 + n) else Char.ofNat (87 + n)

/-- Four-digit lower-case hex, as in `\uXXXX` escapes. -/
def hex4 (n : Nat) : List Char :=
  [hexDigit (n / 4096 % 16), hexDigit (n / 256 % 16), hexDigit (n / 16 % 16), hexDigit (n % 16)]

/-- Escaping of one character by `json.dump(..., ensure_ascii=True)`:
backslash escapes for the JSON shorthands, `\uXXXX` (with surrogate pairs
above U+FFFF) for everything outside the printable ASCII range. -/
def escapeChar (c : Char) : List Char :=
  if c = '"' then ['\\', '"']
  else if c = '\\' then ['\\', '\\']
  else if c = '\n' then ['\\', 'n']
  else if c = '\t' then ['\\', 't']
  else if c = '\r' then ['\\', 'r']
  else if c = Char.ofNat 8 then ['\\', 'b']
  else if c = Char.ofNat 12 then ['\\', 'f']
  else if c.toNat < 32 ∨ c.toNat > 126 then
    if c.toNat ≥ 65536 then
      let v := c.toNat - 65536
      ('\\' :: 'u' :: hex4 (55296 + v / 1024)) ++ ('\\' :: 'u' :: hex4 (56320 + v % 1024))
    else '\\' :: 'u' :: hex4 c.toNat
  else [c]

/-- JSON string literal serialization (quoted, ASCII-escaped). -/
def quoteStr (s : String) : String :=
  ⟨'"' :: s.data.foldr (fun c acc => escapeChar c ++ acc) ['"']⟩

mutual

/-- `json.dumps(j, indent=2, ensure_ascii=True)` at indentation level `ind`. -/
def dumpJson (ind : Nat) : Json → String
  | .null => "null"
  | .bool true => "true"
  | .bool false => "false"
  | .num n => toString n
  | .str s => quoteStr s
  | .arr [] => "[]"
  | .arr (x :: xs) =>
    "[\n" ++ spaces (ind + 2) ++ dumpJson (ind + 2) x ++ dumpArr (ind + 2) xs
      ++ "\n" ++ spaces ind ++ "]"
  | .obj [] => "\x7b\x7d"
  | .obj ((k, v) :: kvs) =>
    "\x7b\n" ++ spaces (ind + 2) ++ quoteStr k ++ ": " ++ dumpJson (ind + 2) v
      ++ dumpObj (ind + 2) kvs ++ "\n" ++ spaces ind ++ "\x7d"

/-- Remaining array elements, each preceded by `,\n` and padding. -/
def dumpArr (ind : Nat) : List Json → String
  | [] => ""
  | x :: xs => ",\n" ++ spaces ind ++ dumpJson ind x ++ dumpArr ind xs

/-- Remaining object entries, each preceded by `,\n` and padding. -/
def dumpObj (ind : Nat) : List (String × Json) → String
  | [] => ""
  | (k, v) :: kvs => ",\n" ++ spaces ind ++ quoteStr k ++ ": " ++ dumpJson ind v ++ dumpObj ind kvs

end

/-- Top-level `json.dump` serialization as written by `__save_list`. -/
def jsonDump (j : Json) : String := dumpJson 0 j

/-- One HTTP response: `status_code`, the parsed JSON body (`response.json()`)
and the raw bytes (`response.content`, used only by the zipball download). -/
structure HttpResponse where
  status : Nat
  body : Json
  raw : List Nat

/-- The upstream HTTP state: what `requests.get` answers at each URL.  The
script's headers do not influence the modelled responses. -/
abbrev World := String → HttpResponse

/-- The local filesystem: path → file bytes (`os.path.isfile` ⟺ `isSome`). -/
abbrev FS := String → Option (List Nat)

/-- Writing one file (`open(path, "wb").write(bytes)`), overwriting. -/
def fsWrite (fs : FS) (path : String) (bytes : List Nat) : FS :=
  fun q => if q = path then some bytes else fs q

/-- The empty filesystem. -/
def fsEmpty : FS := fun _ => none

/-- `GitHubSaver.API_URL`. -/
def API_URL : String := "https://api.github.com/"

/-- `GitHubSaver.__response`: GET `os.path.join(url, stage)`; a 200 status
returns the parsed JSON body, any other status logs a warning and returns
`None`. -/
def response_ (w : World) (url stage : String) : Option Json :=
  let r := w (pathJoin url stage)
  if r.status = 200 then some r.body else none

/-- `GitHubSaver.__api_request`: the top-level listing call
(`users/<login>/<stage>`); raises `Exception` when the response is `None` or
falsy (empty), otherwise returns it. -/
def api_request (w : World) (login stage : String) : Except PyErr Json :=
  match response_ w API_URL ("users/" ++ login ++ "/" ++ stage) with
  | some j =>
    if j.truthy then .ok j
    else .error (.exception ("Cannot get response for " ++ login ++ ", " ++ stage))
  | none => .error (.exception ("Cannot get response for " ++ login ++ ", " ++ stage))

/-- The loop body of `GitHubSaver._remote_request`: skip an entry when forks
are not requested and its `fork` field is truthy, otherwise keep its
`clone_url` (resp. `url`) field, in order. -/
def remote_request_list (user_forks clone_url : Bool) : List Json → Except PyErr (List Json)
  | [] => .ok []
  | repo :: rest => do
    let fork ← repo.getKey "fork"
    if !user_forks && fork.truthy then
      remote_request_list user_forks clone_url rest
    else do
      let url_path ← if clone_url then repo.getKey "clone_url" else repo.getKey "url"
      let tail ← remote_request_list user_forks clone_url rest
      .ok (url_path :: tail)

/-- `GitHubSaver._remote_request` on a listing response. -/
def remote_request (user_forks clone_url : Bool) (content : Json) : Except PyErr (List Json) := do
  remote_request_list user_forks clone_url (← content.iter)

/-- `GitHubSaver.owner_repositories` (memoization of the `cached_property` is
irrelevant in this pure model). -/
def owner_repositories (w : World) (login : String) (user_forks : Bool) :
    Except PyErr (List Json) := do
  remote_request user_forks false (← api_request w login "repos")

/-- `GitHubSaver.owner_clone_links`. -/
def owner_clone_links (w : World) (login : String) (user_forks : Bool) :
    Except PyErr (List Json) := do
  remote_request user_forks true (← api_request w login "repos")

/-- `GitHubSaver.user_starred_list`. -/
def user_starred_list (w : World) (login : String) (user_forks : Bool) :
    Except PyErr (List Json) := do
  remote_request user_forks false (← api_request w login "starred")

/-- `GitHubSaver.user_starred_links`. -/
def user_starred_links (w : World) (login : String) (user_forks : Bool) :
    Except PyErr (List Json) := do
  remote_request user_forks true (← api_request w login "starred")

/-- The loop body of `GitHubSaver.get_stargazers`: one reduced record
`{login, id, node_id}` per raw entry, in order. -/
def gazers_loop : List Json → Except PyErr (List Json)
  | [] => .ok []
  | gazer :: rest => do
    let l ← gazer.getKey "login"
    let i ← gazer.getKey "id"
    let n ← gazer.getKey "node_id"
    let tail ← gazers_loop rest
    .ok (.obj [("login", l), ("id", i), ("node_id", n)] :: tail)

/-- `GitHubSaver.get_stargazers`: empty list when the detail fetch fails or is
falsy, otherwise the reduced records. -/
def get_stargazers (w : World) (url : String) : Except PyErr Json := do
  match response_ w url "stargazers" with
  | some r =>
    if r.truthy then do
      let gazers ← r.iter
      let star_list ← gazers_loop gazers
      .ok (.arr star_list)
    else .ok (.arr [])
  | none => .ok (.arr [])

/-- The loop body of `GitHubSaver.get_forks`: like `gazers_loop` but the login
comes from `fork['owner']['login']`. -/
def forks_loop : List Json → Except PyErr (List Json)
  | [] => .ok []
  | fork :: rest => do
    let o ← fork.getKey "owner"
    let l ← o.getKey "login"
    let i ← fork.getKey "id"
    let n ← fork.getKey "node_id"
    let tail ← forks_loop rest
    .ok (.obj [("login", l), ("id", i), ("node_id", n)] :: tail)

/-- `GitHubSaver.get_forks`. -/
def get_forks (w : World) (url : String) : Except PyErr Json := do
  match response_ w url "forks" with
  | some r =>
    if r.truthy then do
      let forks ← r.iter
      let fork_list ← forks_loop forks
      .ok (.arr fork_list)
    else .ok (.arr [])
  | none => .ok (.arr [])

/-- `GitHubSaver.get_issues`: the raw response, unmodified (Python's `None`
for a failed fetch is rendered as `Json.null`, falsy either way). -/
def get_issues (w : World) (url : String) : Except PyErr Json :=
  .ok ((response_ w url "issues").getD Json.null)

/-- Python `dict` assignment `d[k] = v`: replace in place when the key exists
(keeping its position), append otherwise. -/
def dictInsert (d : List (String × Json)) (k : String) (v : Json) : List (String × Json) :=
  if (d.lookup k).isSome then d.map (fun kv => if kv.1 = k then (k, v) else kv)
  else d ++ [(k, v)]

/-- The accumulation loop of `GitHubSaver.__save_list`: per repository URL,
store `method(repo_url)` under `os.path.basename(repo_url)` only when the
result is truthy. -/
def export_loop (method : String → Except PyErr Json) :
    List Json → List (String × Json) → Except PyErr (List (String × Json))
  | [], acc => .ok acc
  | repo_url :: rest, acc => do
    let u ← repo_url.asString
    let repo_name := basename u
    let result ← method u
    export_loop method rest (if result.truthy then dictInsert acc repo_name result else acc)

/-- `GitHubSaver.__save_list`: dispatch the detail method by destination
string (the catch-all `raise NotImplemented(...)` calls the non-callable
builtin `NotImplemented`, which raises `TypeError`), iterate
`owner_repositories`, and produce the output file name together with the
serialized JSON text. -/
def save_list (w : World) (login : String) (user_forks : Bool) (destination : String) :
    Except PyErr (String × String) := do
  let method ←
    if destination = "stargazers" then .ok (get_stargazers w)
    else if destination = "forks" then .ok (get_forks w)
    else if destination = "issues" then .ok (get_issues w)
    else .error PyErr.typeError
  let repos ← owner_repositories w login user_forks
  let repo_dict ← export_loop method repos []
  .ok (login ++ "_" ++ destination ++ ".json", jsonDump (.obj repo_dict))

/-- The loop body of `GitHubSaver.save_repos`: GET `<repo_url>/zipball`
(unauthenticated); on 200, write `<save_path>/<repo_name>.zip` when `force` is
set or no file exists there, else leave the filesystem untouched; on non-200,
log and continue. -/
def save_repo_step (w : World) (save_path : String) (force : Bool) (fs : FS)
    (repo_url : Json) : Except PyErr FS := do
  let u ← repo_url.asString
  let repo_name := basename u
  let repo_resp := w (pathJoin u "zipball")
  if repo_resp.status = 200 then
    let repo_path := pathJoin save_path (repo_name ++ ".zip")
    if force || (fs repo_path).isNone then
      .ok (fsWrite fs repo_path repo_resp.raw)
    else
      .ok fs
  else
    .ok fs

/-- `GitHubSaver.save_repos`: iterate the starred or the owned collection
according to the flag, threading the filesystem through `save_repo_step`. -/
def save_repos (w : World) (login : String) (user_forks : Bool) (save_path : String)
    (force starred : Bool) (fs : FS) : Except PyErr FS := do
  let repositories ← if starred then user_starred_list w login user_forks
                     else owner_repositories w login user_forks
  repositories.foldlM (save_repo_step w save_path force) fs

/-- The clone-URL rewriting in `GitHubSaver.clone_repos`: Python
`str.replace`, specialized to the fixed pattern `github.com` the source uses
(left-to-right, non-overlapping, every occurrence). -/
def replaceGithub (rep : List Char) : List Char → List Char
  | 'g' :: 'i' :: 't' :: 'h' :: 'u' :: 'b' :: '.' :: 'c' :: 'o' :: 'm' :: rest =>
    rep ++ replaceGithub rep rest
  | c :: rest => c :: replaceGithub rep rest
  | [] => []

/-- `repo_url.replace("github.com", login + ":" + token + "@github.com")` on
strings. -/
def replaceGithubStr (rep s : String) : String := ⟨replaceGithub rep.data s.data⟩

/-- The token rewrite guard of `clone_repos`: `if self.__user_token:` is
Python-falsy for `None` and for the empty string. -/
def rewriteCloneUrl (login : String) (token : Option String) (u : String) : String :=
  match token with
  | some t => if t ≠ "" then replaceGithubStr (login ++ ":" ++ t ++ "@github.com") u else u
  | none => u

/-- The loop body of `GitHubSaver.clone_repos`: derive the target directory
from the URL's basename without its extension, rewrite the URL when a token is
configured, and assemble the `git clone` command (`" --bare" * bare` and
`" --recursive" * recursive` append the flags when requested). -/
def clone_command (login : String) (token : Option String) (clone_path : String)
    (bare recursive : Bool) (repo_url_j : Json) : Except PyErr String := do
  let repo_url ← repo_url_j.asString
  let repo_name := (splitext (basename repo_url)).1
  let repo_path := pathJoin clone_path repo_name
  let repo_url := rewriteCloneUrl login token repo_url
  .ok ("git clone " ++ repo_url ++ " " ++ repo_path
        ++ (if bare then " --bare" else "") ++ (if recursive then " --recursive" else ""))

/-- `GitHubSaver.clone_repos`: the ordered list of commands handed to
`os.system`, one per repository of the selected collection. -/
def clone_repos (w : World) (login : String) (token : Option String) (user_forks : Bool)
    (clone_path : String) (bare recursive starred : Bool) : Except PyErr (List String) := do
  let repositories ← if starred then user_starred_links w login user_forks
                     else owner_clone_links w login user_forks
  repositories.mapM (clone_command login token clone_path bare recursive)

/-- The class-level `GitHubSaver.HEADERS["Authorization"]` initial value. -/
def HEADERS_auth_init : String := ""

/-- Effect of one `GitHubSaver.__init__` on the class-level Authorization
header: `HEADERS.update` only when a token is passed (`is not None`). -/
def gh_init (auth : String) (user_token : Option String) : String :=
  match user_token with
  | some t => t
  | none => auth

/-- The class-level Authorization value after a sequence of constructions
(`GitHubSaver.HEADERS` is one shared dict, mutated in place). -/
def authAfter (constructions : List (Option String)) : String :=
  constructions.foldl gh_init HEADERS_auth_init

/-- The header set `GitHubSaver.__response` sends, as a function of the
class-level Authorization value. -/
def request_headers (auth : String) : List (String × String) :=
  [("Accept", "application/vnd.github.v3+json"), ("Authorization", auth)]

/-- A concrete owned-repository listing entry for the demonstration world. -/
def demoOwnedEntry : Json :=
  .obj [("fork", .bool false), ("url", .str "r/o"), ("clone_url", .str "r/o.git")]

/-- A concrete starred-repository listing entry for the demonstration world. -/
def demoStarredEntry : Json :=
  .obj [("fork", .bool false), ("url", .str "r/s"), ("clone_url", .str "r/s.git")]

/-- A concrete stargazer entry. -/
def demoGazer : Json := .obj [("login", .str "a"), ("id", .num 1), ("node_id", .str "n")]

/-- A small fixed upstream state for user `u`: one owned repository `o`, one
starred repository `s`, zipballs for both, one stargazer on `o`. -/
def demoWorld : World := fun u =>
  if u = "https://api.github.com/users/u/repos" then ⟨200, .arr [demoOwnedEntry], [1]⟩
  else if u = "https://api.github.com/users/u/starred" then ⟨200, .arr [demoStarredEntry], [2]⟩
  else if u = "r/s/zipball" then ⟨200, .null, [7]⟩
  else if u = "r/o/zipball" then ⟨200, .null, [8]⟩
  else if u = "r/o/stargazers" then ⟨200, .arr [demoGazer], [3]⟩
  else ⟨404, .null, []⟩

example : owner_repositories demoWorld "u" false = .ok [.str "r/o"] := rfl

example : user_starred_links demoWorld "u" false = .ok [.str "r/s.git"] := rfl

example :
    save_list demoWorld "u" false "stargazers" =
      .ok ("u_stargazers.json",
        "\x7b\n  \"o\": [\n    \x7b\n      \"login\": \"a\",\n      \"id\": 1,\n      \"node_id\": \"n\"\n    \x7d\n  ]\n\x7d") := rfl

example :
    (save_repos demoWorld "u" false "." false true fsEmpty).map (fun fs => fs "./s.zip") =
      .ok (some [7]) := rfl

example :
    clone_repos demoWorld "u" (some "T") false "." false false false =
      .ok ["git clone r/o.git ./o"] := rfl

example :
    jsonDump (.obj [("r", .arr [.obj [("login", .str "a")]])]) =
      "\x7b\n  \"r\": [\n    \x7b\n      \"login\": \"a\"\n    \x7d\n  ]\n\x7d" := rfl

example : jsonDump (.str "é") = "\"\\u00e9\"" := rfl

example : basename "https://api.github.com/repos/u/name" = "name" := rfl

example : splitext "repo.git" = ("repo", ".git") := rfl

example : splitext ".git" = (".git", "") := rfl

example : pathJoin "." "repo" = "./repo" := rfl

/-- A concrete fork listing entry (its `fork` field is `true`). -/
def demoForkEntry : Json :=
  .obj [("fork", .bool true), ("url", .str "r/f"), ("clone_url", .str "r/f.git")]

/-- Well-formedness of one listing entry: the three fields `_remote_request`
reads are present, with a boolean `fork`. -/
def WFListingEntry (e : Json) : Prop :=
  ∃ b u c, e.getKey "fork" = .ok (Json.bool b) ∧
    e.getKey "url" = .ok u ∧ e.getKey "clone_url" = .ok c

/-- The field `_remote_request` keeps from each entry. -/
def pickUrl (clone_url : Bool) (e : Json) : Json :=
  e.getD (if clone_url then "clone_url" else "url")

theorem remote_request_list_eq (uf cu : Bool) (entries : List Json)
    (hwf : ∀ e ∈ entries, WFListingEntry e) :
    remote_request_list uf cu entries =
      .ok ((entries.filter (fun e => uf || !(e.getD "fork").truthy)).map (pickUrl cu)) := by
  induction entries with
  | nil => rfl
  | cons repo rest ih =>
    obtain ⟨b, u, c, hf, hu, hc⟩ := hwf repo (List.mem_cons_self _ _)
    have hrest := ih (fun e he => hwf e (List.mem_cons_of_mem _ he))
    cases uf with
    | false =>
      cases b with
      | true =>
        simp [remote_request_list, hf, hrest, Json.truthy, Json.getD, List.filter_cons]
      | false =>
        cases cu with
        | false =>
          simp [remote_request_list, hf, hu, hrest, Json.truthy, Json.getD, pickUrl,
            List.filter_cons]
        | true =>
          simp [remote_request_list, hf, hc, hrest, Json.truthy, Json.getD, pickUrl,
            List.filter_cons]
    | true =>
      cases cu with
      | false =>
        simp [remote_request_list, hf, hu, hrest, Json.truthy, Json.getD, pickUrl,
          List.filter_cons]
      | true =>
        simp [remote_request_list, hf, hc, hrest, Json.truthy, Json.getD, pickUrl,
          List.filter_cons]

/-- C1: `_remote_request` excludes exactly the `fork == true` entries when the
include-forks flag is false, keeps every entry when the flag is true, and in
both cases preserves the API response order (filter-then-map form). -/
theorem C1_fork_filter (cu : Bool) (entries : List Json)
    (hwf : ∀ e ∈ entries, WFListingEntry e) :
    remote_request false cu (.arr entries) =
      .ok ((entries.filter (fun e => !(e.getD "fork").truthy)).map (pickUrl cu)) ∧
    remote_request true cu (.arr entries) = .ok (entries.map (pickUrl cu)) := by
  constructor
  · have h := remote_request_list_eq false cu entries hwf
    simpa [remote_request, Json.iter, Bind.bind, Except.bind] using h
  · have h := remote_request_list_eq true cu entries hwf
    simpa [remote_request, Json.iter, Bind.bind, Except.bind] using h

/-- Witness for C1: on a listing with one ordinary and one fork entry, forks
are dropped exactly when the flag is off. -/
theorem C1_fork_filter_witness :
    (∀ e ∈ [demoOwnedEntry, demoForkEntry], WFListingEntry e) ∧
    (remote_request false true (.arr [demoOwnedEntry, demoForkEntry]) =
      .ok (([demoOwnedEntry, demoForkEntry].filter
        (fun e => !(e.getD "fork").truthy)).map (pickUrl true)) ∧
    remote_request true true (.arr [demoOwnedEntry, demoForkEntry]) =
      .ok ([demoOwnedEntry, demoForkEntry].map (pickUrl true))) := by
  have hwf : ∀ e ∈ [demoOwnedEntry, demoForkEntry], WFListingEntry e := by
    intro e he
    simp only [List.mem_cons, List.not_mem_nil, or_false] at he
    rcases he with rfl | rfl
    · exact ⟨false, .str "r/o", .str "r/o.git", rfl, rfl, rfl⟩
    · exact ⟨true, .str "r/f", .str "r/f.git", rfl, rfl, rfl⟩
  exact ⟨hwf, C1_fork_filter true [demoOwnedEntry, demoForkEntry] hwf⟩

/-- C2: the top-level listing call (`users/<login>/<stage>`, stage `repos` or
`starred`) raises `Exception` when the response status is not 200 or the
returned list is empty, and returns the parsed list whenever a non-empty 200
response arrives. -/
theorem C2_listing_fatal (w : World) (login stage : String) (st : Nat) (l : List Json)
    (raw : List Nat)
    (h : w (pathJoin API_URL ("users/" ++ login ++ "/" ++ stage)) = ⟨st, .arr l, raw⟩) :
    (st ≠ 200 ∨ l = [] → api_request w login stage =
      .error (.exception ("Cannot get response for " ++ login ++ ", " ++ stage))) ∧
    (st = 200 → l ≠ [] → api_request w login stage = .ok (.arr l)) := by
  constructor
  · rintro (hst | hl)
    · simp [api_request, response_, h, hst]
    · subst hl
      by_cases hst : st = 200 <;> simp [api_request, response_, h, hst, Json.truthy]
  · intro hst hl
    cases l with
    | nil => exact absurd rfl hl
    | cons x xs => simp [api_request, response_, h, hst, Json.truthy]

/-- Witness for C2: in the demonstration world, the owned listing of user `u`
returns one entry (200, non-empty) and is parsed, while the listing of user
`v` has no data (404) and raises. -/
theorem C2_listing_fatal_witness :
    (demoWorld (pathJoin API_URL ("users/" ++ "u" ++ "/" ++ "repos")) =
      ⟨200, .arr [demoOwnedEntry], [1]⟩) ∧
    (200 ≠ 200 ∨ [demoOwnedEntry] = [] → api_request demoWorld "u" "repos" =
      .error (.exception ("Cannot get response for " ++ "u" ++ ", " ++ "repos"))) ∧
    ((200 : Nat) = 200 → [demoOwnedEntry] ≠ [] →
      api_request demoWorld "u" "repos" = .ok (.arr [demoOwnedEntry])) := by
  refine ⟨rfl, C2_listing_fatal demoWorld "u" "repos" 200 [demoOwnedEntry] [1] rfl⟩

/-- Well-formedness of a raw stargazer entry: the three fields
`get_stargazers` reads are present. -/
def WFGazer (g : Json) : Prop :=
  (∃ v, g.getKey "login" = .ok v) ∧ (∃ v, g.getKey "id" = .ok v) ∧
    (∃ v, g.getKey "node_id" = .ok v)

/-- Well-formedness of a raw fork entry: the fields `get_forks` reads are
present, the login sitting inside the `owner` object. -/
def WFForkEntry (f : Json) : Prop :=
  (∃ o v, f.getKey "owner" = .ok o ∧ o.getKey "login" = .ok v) ∧
    (∃ v, f.getKey "id" = .ok v) ∧ (∃ v, f.getKey "node_id" = .ok v)

/-- The reduced stargazer record `{login, id, node_id}`. -/
def reduceGazer (g : Json) : Json :=
  .obj [("login", g.getD "login"), ("id", g.getD "id"), ("node_id", g.getD "node_id")]

/-- The reduced fork record `{login, id, node_id}` with the fork owner's
login. -/
def reduceFork (f : Json) : Json :=
  .obj [("login", (f.getD "owner").getD "login"), ("id", f.getD "id"),
    ("node_id", f.getD "node_id")]

theorem gazers_loop_eq (gs : List Json) (h : ∀ g ∈ gs, WFGazer g) :
    gazers_loop gs = .ok (gs.map reduceGazer) := by
  induction gs with
  | nil => rfl
  | cons g rest ih =>
    obtain ⟨⟨lv, hl⟩, ⟨iv, hi⟩, ⟨nv, hn⟩⟩ := h g (List.mem_cons_self _ _)
    simp [gazers_loop, hl, hi, hn, ih (fun x hx => h x (List.mem_cons_of_mem _ hx)),
      reduceGazer, Json.getD]

theorem forks_loop_eq (fs : List Json) (h : ∀ f ∈ fs, WFForkEntry f) :
    forks_loop fs = .ok (fs.map reduceFork) := by
  induction fs with
  | nil => rfl
  | cons f rest ih =>
    obtain ⟨⟨o, lv, ho, hl⟩, ⟨iv, hi⟩, ⟨nv, hn⟩⟩ := h f (List.mem_cons_self _ _)
    simp [forks_loop, ho, hl, hi, hn, ih (fun x hx => h x (List.mem_cons_of_mem _ hx)),
      reduceFork, Json.getD]

/-- C6: a successful stargazers (resp. forks) fetch maps each raw entry to the
reduced record `{login, id, node_id}` (for forks, the owner's login), while a
successful issues fetch is returned unmodified. -/
theorem C6_detail_reduction :
    (∀ (w : World) (u : String) (gs : List Json) (raw : List Nat),
      w (pathJoin u "stargazers") = ⟨200, .arr gs, raw⟩ →
      (∀ g ∈ gs, WFGazer g) →
      get_stargazers w u = .ok (.arr (gs.map reduceGazer))) ∧
    (∀ (w : World) (u : String) (fs : List Json) (raw : List Nat),
      w (pathJoin u "forks") = ⟨200, .arr fs, raw⟩ →
      (∀ f ∈ fs, WFForkEntry f) →
      get_forks w u = .ok (.arr (fs.map reduceFork))) ∧
    (∀ (w : World) (u : String) (j : Json) (raw : List Nat),
      w (pathJoin u "issues") = ⟨200, j, raw⟩ →
      get_issues w u = .ok j) := by
  refine ⟨?_, ?_, ?_⟩
  · intro w u gs raw h hwf
    cases gs with
    | nil => simp [get_stargazers, response_, h, Json.truthy]
    | cons g rest =>
      simp [get_stargazers, response_, h, Json.truthy, Json.iter,
        gazers_loop_eq _ hwf]
  · intro w u fs raw h hwf
    cases fs with
    | nil => simp [get_forks, response_, h, Json.truthy]
    | cons f rest =>
      simp [get_forks, response_, h, Json.truthy, Json.iter, forks_loop_eq _ hwf]
  · intro w u j raw h
    simp [get_issues, response_, h]

/-- A concrete raw fork entry with a nested owner object. -/
def demoForkDetail : Json :=
  .obj [("owner", .obj [("login", .str "b")]), ("id", .num 2), ("node_id", .str "m")]

/-- A world serving one stargazer, one fork and one raw issue for `r/o`. -/
def demoDetailWorld : World := fun u =>
  if u = "r/o/stargazers" then ⟨200, .arr [demoGazer], []⟩
  else if u = "r/o/forks" then ⟨200, .arr [demoForkDetail], []⟩
  else if u = "r/o/issues" then ⟨200, .arr [.str "raw issue"], []⟩
  else ⟨404, .null, []⟩

/-- Witness for C6: the three detail fetches against `demoDetailWorld`. -/
theorem C6_detail_reduction_witness :
    (demoDetailWorld (pathJoin "r/o" "stargazers") = ⟨200, .arr [demoGazer], []⟩ ∧
      (∀ g ∈ [demoGazer], WFGazer g) ∧
      get_stargazers demoDetailWorld "r/o" = .ok (.arr ([demoGazer].map reduceGazer))) ∧
    (demoDetailWorld (pathJoin "r/o" "forks") = ⟨200, .arr [demoForkDetail], []⟩ ∧
      (∀ f ∈ [demoForkDetail], WFForkEntry f) ∧
      get_forks demoDetailWorld "r/o" = .ok (.arr ([demoForkDetail].map reduceFork))) ∧
    (demoDetailWorld (pathJoin "r/o" "issues") = ⟨200, .arr [.str "raw issue"], []⟩ ∧
      get_issues demoDetailWorld "r/o" = .ok (.arr [.str "raw issue"])) := by
  have hg : ∀ g ∈ [demoGazer], WFGazer g := by
    intro g hg
    simp only [List.mem_cons, List.not_mem_nil, or_false] at hg
    subst hg
    exact ⟨⟨.str "a", rfl⟩, ⟨.num 1, rfl⟩, ⟨.str "n", rfl⟩⟩
  have hf : ∀ f ∈ [demoForkDetail], WFForkEntry f := by
    intro f hf
    simp only [List.mem_cons, List.not_mem_nil, or_false] at hf
    subst hf
    exact ⟨⟨.obj [("login", .str "b")], .str "b", rfl, rfl⟩, ⟨.num 2, rfl⟩, ⟨.str "m", rfl⟩⟩
  refine ⟨⟨rfl, hg, C6_detail_reduction.1 demoDetailWorld "r/o" [demoGazer] [] rfl hg⟩,
    ⟨rfl, hf, C6_detail_reduction.2.1 demoDetailWorld "r/o" [demoForkDetail] [] rfl hf⟩,
    ⟨rfl, C6_detail_reduction.2.2 demoDetailWorld "r/o" (.arr [.str "raw issue"]) [] rfl⟩⟩

/-- The entry `__save_list` contributes for one repository URL: present with
the fetched value when that value is truthy, absent otherwise. -/
def exportEntry (f : String → Json) (u : String) : Option (String × Json) :=
  if (f u).truthy then some (basename u, f u) else none

theorem lookup_append_left_none {α β : Type _} [BEq α] (l₁ l₂ : List (α × β)) (a : α)
    (h : l₁.lookup a = none) : (l₁ ++ l₂).lookup a = l₂.lookup a := by
  induction l₁ with
  | nil => rfl
  | cons p rest ih =>
    cases hpa : a == p.1 with
    | true => simp [List.lookup, hpa] at h
    | false =>
      simp only [List.lookup, hpa] at h
      simpa [List.cons_append, List.lookup, hpa] using ih h

theorem dictInsert_fresh (d : List (String × Json)) (k : String) (v : Json)
    (h : d.lookup k = none) : dictInsert d k v = d ++ [(k, v)] := by
  simp [dictInsert, h]

theorem export_loop_eq (method : String → Except PyErr Json) (f : String → Json)
    (urls : List String) (acc : List (String × Json))
    (hm : ∀ u ∈ urls, method u = .ok (f u))
    (hfresh : ∀ u ∈ urls, acc.lookup (basename u) = none)
    (hnd : (urls.map basename).Nodup) :
    export_loop method (urls.map .str) acc = .ok (acc ++ urls.filterMap (exportEntry f)) := by
  induction urls generalizing acc with
  | nil => simp [export_loop]
  | cons u rest ih =>
    simp only [List.map_cons, List.nodup_cons] at hnd ⊢
    have hmu := hm u (List.mem_cons_self _ _)
    have hmr := fun x hx => hm x (List.mem_cons_of_mem _ hx)
    have hfu := hfresh u (List.mem_cons_self _ _)
    cases htr : (f u).truthy with
    | false =>
      have hrest := ih acc hmr (fun x hx => hfresh x (List.mem_cons_of_mem _ hx)) hnd.2
      simp [export_loop, Json.asString, hmu, htr, hrest, List.filterMap_cons,
        exportEntry]
    | true =>
      have hfresh' : ∀ x ∈ rest, (dictInsert acc (basename u) (f u)).lookup (basename x) = none := by
        intro x hx
        rw [dictInsert_fresh _ _ _ hfu,
          lookup_append_left_none _ _ _ (hfresh x (List.mem_cons_of_mem _ hx))]
        have hne : basename u ≠ basename x := by
          intro he
          exact hnd.1 (he ▸ List.mem_map_of_mem basename hx)
        have hb : (basename x == basename u) = false := beq_eq_false_iff_ne.mpr (Ne.symm hne)
        simp [List.lookup, hb]
      have hrest := ih (dictInsert acc (basename u) (f u)) hmr hfresh' hnd.2
      rw [dictInsert_fresh _ _ _ hfu] at hrest
      simp [export_loop, Json.asString, hmu, htr, dictInsert_fresh _ _ _ hfu, hrest,
        List.filterMap_cons, exportEntry, List.append_assoc]

theorem lookup_exportEntries_of_not_mem (f : String → Json) (urls : List String) (k : String)
    (h : k ∉ urls.map basename) :
    (urls.filterMap (exportEntry f)).lookup k = none := by
  induction urls with
  | nil => rfl
  | cons u rest ih =>
    simp only [List.map_cons, List.mem_cons, not_or] at h
    cases htr : (f u).truthy with
    | false => simpa [List.filterMap_cons, exportEntry, htr] using ih h.2
    | true =>
      have hb : (k == basename u) = false := beq_eq_false_iff_ne.mpr h.1
      simpa [List.filterMap_cons, exportEntry, htr, List.lookup, hb] using ih h.2

theorem lookup_exportEntries_of_falsy (f : String → Json) (urls : List String)
    (hnd : (urls.map basename).Nodup) (u : String) (hu : u ∈ urls)
    (hnt : (f u).truthy = false) :
    (urls.filterMap (exportEntry f)).lookup (basename u) = none := by
  induction urls with
  | nil => cases hu
  | cons v rest ih =>
    simp only [List.map_cons, List.nodup_cons] at hnd
    rcases List.mem_cons.mp hu with rfl | hu'
    · simp only [List.filterMap_cons, exportEntry, hnt, if_false]
      exact lookup_exportEntries_of_not_mem f rest (basename u) hnd.1
    · have hne : basename v ≠ basename u := by
        intro he
        exact hnd.1 (he ▸ List.mem_map_of_mem basename hu')
      cases htr : (f v).truthy with
      | false =>
        simpa [List.filterMap_cons, exportEntry, htr] using ih hnd.2 hu'
      | true =>
        have hb : (basename u == basename v) = false := beq_eq_false_iff_ne.mpr (Ne.symm hne)
        simpa [List.filterMap_cons, exportEntry, htr, List.lookup, hb] using ih hnd.2 hu'

/-- C3: when the per-repository detail fetch yields no data, the repository's
name is absent as a key of the exported mapping and the remaining repositories
are still processed: the final mapping is exactly the ordered sequence of
entries for repositories with truthy results, a falsy result's key looks up to
nothing, and a failed (non-200) stargazers/forks/issues fetch produces the
falsy `[]`/`None`. -/
theorem C3_skip_failed_details (method : String → Except PyErr Json) (f : String → Json)
    (urls : List String)
    (hm : ∀ u ∈ urls, method u = .ok (f u))
    (hnd : (urls.map basename).Nodup) :
    export_loop method (urls.map .str) [] = .ok (urls.filterMap (exportEntry f)) ∧
    (∀ u ∈ urls, (f u).truthy = false →
      (urls.filterMap (exportEntry f)).lookup (basename u) = none) ∧
    (∀ (w : World) (url : String), (w (pathJoin url "stargazers")).status ≠ 200 →
      get_stargazers w url = .ok (.arr [])) ∧
    (∀ (w : World) (url : String), (w (pathJoin url "forks")).status ≠ 200 →
      get_forks w url = .ok (.arr [])) ∧
    (∀ (w : World) (url : String), (w (pathJoin url "issues")).status ≠ 200 →
      get_issues w url = .ok .null) ∧
    (Json.arr []).truthy = false ∧ Json.null.truthy = false := by
  refine ⟨?_, ?_, ?_, ?_, ?_, rfl, rfl⟩
  · simpa using export_loop_eq method f urls [] hm (fun _ _ => rfl) hnd
  · intro u hu hnt
    exact lookup_exportEntries_of_falsy f urls hnd u hu hnt
  · intro w url h
    simp [get_stargazers, response_, h]
  · intro w url h
    simp [get_forks, response_, h]
  · intro w url h
    simp [get_issues, response_, h]

/-- Witness for C3: against `demoDetailWorld`, repository `r/o` has stargazer
data and repository `r/x` does not (its fetch is a 404), so only key `o`
appears in the mapping built by the export loop. -/
theorem C3_skip_failed_details_witness :
    (∀ u ∈ ["r/o", "r/x"], get_stargazers demoDetailWorld u =
      .ok ((fun v => if v = "r/o" then Json.arr [reduceGazer demoGazer] else Json.arr []) u)) ∧
    (["r/o", "r/x"].map basename).Nodup ∧
    export_loop (get_stargazers demoDetailWorld) (["r/o", "r/x"].map .str) [] =
      .ok (["r/o", "r/x"].filterMap
        (exportEntry (fun v => if v = "r/o" then Json.arr [reduceGazer demoGazer] else Json.arr []))) := by
  have hm : ∀ u ∈ ["r/o", "r/x"], get_stargazers demoDetailWorld u =
      .ok ((fun v => if v = "r/o" then Json.arr [reduceGazer demoGazer] else Json.arr []) u) := by
    intro u hu
    simp only [List.mem_cons, List.not_mem_nil, or_false] at hu
    rcases hu with rfl | rfl <;> rfl
  have hnd : (["r/o", "r/x"].map basename).Nodup := by decide
  exact ⟨hm, hnd,
    (C3_skip_failed_details (get_stargazers demoDetailWorld)
      (fun v => if v = "r/o" then Json.arr [reduceGazer demoGazer] else Json.arr [])
      ["r/o", "r/x"] hm hnd).1⟩

/-- C4: when the zipball fetch answers 200 for a repository, `force = false`
against an existing `<save_path>/<repo_name>.zip` performs no write (the
filesystem is returned unchanged); with `force = true` or no existing file,
the full response body is written there, and every other path is untouched. -/
theorem C4_zip_force (w : World) (fs : FS) (sp u : String) (force : Bool)
    (h200 : (w (pathJoin u "zipball")).status = 200) :
    (force = false → fs (pathJoin sp (basename u ++ ".zip")) ≠ none →
      save_repo_step w sp force fs (.str u) = .ok fs) ∧
    (force = true ∨ fs (pathJoin sp (basename u ++ ".zip")) = none →
      save_repo_step w sp force fs (.str u) =
        .ok (fsWrite fs (pathJoin sp (basename u ++ ".zip")) (w (pathJoin u "zipball")).raw)) ∧
    (∀ p : String, p ≠ pathJoin sp (basename u ++ ".zip") →
      fsWrite fs (pathJoin sp (basename u ++ ".zip")) (w (pathJoin u "zipball")).raw p = fs p) := by
  refine ⟨?_, ?_, ?_⟩
  · intro hforce hex
    subst hforce
    cases hfs : fs (pathJoin sp (basename u ++ ".zip")) with
    | none => exact absurd hfs hex
    | some b => simp [save_repo_step, Json.asString, h200, hfs]
  · rintro (hforce | hfs)
    · subst hforce
      simp [save_repo_step, Json.asString, h200]
    · simp [save_repo_step, Json.asString, h200, hfs]
  · intro p hp
    simp [fsWrite, hp]

/-- Witness for C4: the starred repository `r/s` of the demonstration world,
downloaded with `force = false` into an empty filesystem. -/
theorem C4_zip_force_witness :
    (demoWorld (pathJoin "r/s" "zipball")).status = 200 ∧
    ((false : Bool) = true ∨ fsEmpty (pathJoin "." (basename "r/s" ++ ".zip")) = none →
      save_repo_step demoWorld "." false fsEmpty (.str "r/s") =
        .ok (fsWrite fsEmpty (pathJoin "." (basename "r/s" ++ ".zip"))
          (demoWorld (pathJoin "r/s" "zipball")).raw)) := by
  exact ⟨rfl, (C4_zip_force demoWorld fsEmpty "." "r/s" false rfl).2.1⟩

theorem replaceGithub_https (rep rest : List Char) :
    replaceGithub rep
        (['h', 't', 't', 'p', 's', ':', '/', '/', 'g', 'i', 't', 'h', 'u', 'b', '.',
          'c', 'o', 'm', '/'] ++ rest) =
      ['h', 't', 't', 'p', 's', ':', '/', '/'] ++ (rep ++ ('/' :: replaceGithub rep rest)) := rfl

/-- C5: with a configured (non-empty) token the clone URL handed to the
external `git clone` embeds `login:token@` before the `github.com` host — in
particular token `T`, login `alice` and URL
`https://github.com/alice/repo.git` yield
`https://alice:T@github.com/alice/repo.git` — and with no token the URL passes
through unchanged. -/
theorem C5_clone_token_rewrite :
    (rewriteCloneUrl "alice" (some "T") "https://github.com/alice/repo.git" =
      "https://alice:T@github.com/alice/repo.git") ∧
    (clone_command "alice" (some "T") "." false false (.str "https://github.com/alice/repo.git") =
      .ok "git clone https://alice:T@github.com/alice/repo.git ./repo") ∧
    (∀ login u : String, rewriteCloneUrl login none u = u) ∧
    (∀ login t rest : String, t ≠ "" →
      rewriteCloneUrl login (some t) ("https://github.com/" ++ rest) =
        "https://" ++ (login ++ ":" ++ t ++ "@github.com") ++ "/" ++
          replaceGithubStr (login ++ ":" ++ t ++ "@github.com") rest) := by
  refine ⟨rfl, rfl, fun _ _ => rfl, ?_⟩
  intro login t rest ht
  simp only [rewriteCloneUrl, if_pos ht, replaceGithubStr]
  apply String.ext
  simp only [String.data_append]
  rw [replaceGithub_https]
  simp [List.append_assoc]

/-- Witness for C5: the general host-rewriting conjunct at token `T`, login
`alice`, path `alice/repo.git`. -/
theorem C5_clone_token_rewrite_witness :
    ("T" : String) ≠ "" ∧
    rewriteCloneUrl "alice" (some "T") ("https://github.com/" ++ "alice/repo.git") =
      "https://" ++ ("alice" ++ ":" ++ "T" ++ "@github.com") ++ "/" ++
        replaceGithubStr ("alice" ++ ":" ++ "T" ++ "@github.com") "alice/repo.git" := by
  have ht : ("T" : String) ≠ "" := by decide
  exact ⟨ht, C5_clone_token_rewrite.2.2.2 "alice" "T" "alice/repo.git" ht⟩

/-- C7: the JSON export is a deterministic, pure function of the upstream API
state — two runs against agreeing worlds produce the same output file name and
byte-identical serialized contents — and the serialization uses 2-space
indentation, insertion-ordered keys and ASCII escaping of non-ASCII text. -/
theorem C7_export_deterministic :
    (∀ (w1 w2 : World) (login : String) (uf : Bool) (dest : String),
      (∀ u, w1 u = w2 u) →
      save_list w1 login uf dest = save_list w2 login uf dest) ∧
    jsonDump (.obj [("r", .arr [.obj [("login", .str "a")]])]) =
      "\x7b\n  \"r\": [\n    \x7b\n      \"login\": \"a\"\n    \x7d\n  ]\n\x7d" ∧
    jsonDump (.str "é") = "\"\\u00e9\"" := by
  refine ⟨?_, rfl, rfl⟩
  intro w1 w2 login uf dest h
  rw [funext h]

/-- Witness for C7: the export against the demonstration world, run twice. -/
theorem C7_export_deterministic_witness :
    (∀ u, demoWorld u = demoWorld u) ∧
    save_list demoWorld "u" false "stargazers" = save_list demoWorld "u" false "stargazers" := by
  exact ⟨fun _ => rfl,
    C7_export_deterministic.1 demoWorld demoWorld "u" false "stargazers" (fun _ => rfl)⟩

/-- C8, evaluated against the code: for any destination outside
`stargazers`/`forks`/`issues`, `__save_list` fails for every world alike —
before any repository listing or detail request can matter — but the raised
exception is a `TypeError`, because `raise NotImplemented(...)` calls the
non-callable builtin constant `NotImplemented` instead of constructing a
`NotImplementedError`. -/
theorem C8_bad_destination (w : World) (login : String) (uf : Bool) (dest : String)
    (h1 : dest ≠ "stargazers") (h2 : dest ≠ "forks") (h3 : dest ≠ "issues") :
    save_list w login uf dest = .error PyErr.typeError := by
  simp [save_list, h1, h2, h3]

/-- Witness for C8: destination `zipball` is rejected with `TypeError`. -/
theorem C8_bad_destination_witness :
    ("zipball" : String) ≠ "stargazers" ∧ ("zipball" : String) ≠ "forks" ∧
    ("zipball" : String) ≠ "issues" ∧
    save_list demoWorld "u" false "zipball" = .error PyErr.typeError := by
  refine ⟨by decide, by decide, by decide, ?_⟩
  exact C8_bad_destination demoWorld "u" false "zipball" (by decide) (by decide) (by decide)

theorem foldl_gh_init_keeps (T : String) (post : List (Option String))
    (h : ∀ x ∈ post, x = none ∨ x = some T) : post.foldl gh_init T = T := by
  induction post with
  | nil => rfl
  | cons x rest ih =>
    have hrest := ih (fun y hy => h y (List.mem_cons_of_mem _ hy))
    rcases h x (List.mem_cons_self _ _) with rfl | rfl
    · exact hrest
    · exact hrest

/-- C9: `HEADERS` is class-level shared state — once any construction passes
token `T`, the Authorization header of every subsequent request (issued
through any instance, including ones constructed without a token before or
after) is `T`, until a construction passes a different token, which then
takes over. -/
theorem C9_shared_auth_header (pre post : List (Option String)) (T : String)
    (h : ∀ x ∈ post, x = none ∨ x = some T) :
    authAfter (pre ++ some T :: post) = T ∧
    request_headers (authAfter (pre ++ some T :: post)) =
      [("Accept", "application/vnd.github.v3+json"), ("Authorization", T)] ∧
    (∀ (cs : List (Option String)) (T' : String), authAfter (cs ++ [some T']) = T') := by
  have hmain : authAfter (pre ++ some T :: post) = T := by
    unfold authAfter
    rw [List.foldl_append]
    exact foldl_gh_init_keeps T post h
  refine ⟨hmain, by rw [hmain]; rfl, ?_⟩
  intro cs T'
  unfold authAfter
  rw [List.foldl_append]
  rfl

/-- Witness for C9: a token-less construction, then token `T`, then another
token-less one — the header stays `T`; a later construction with `S` takes
over. -/
theorem C9_shared_auth_header_witness :
    (∀ x ∈ [none, some "T"], x = none ∨ x = some "T") ∧
    (authAfter ([some "A", none] ++ some "T" :: [none, some "T"]) = "T" ∧
      request_headers (authAfter ([some "A", none] ++ some "T" :: [none, some "T"])) =
        [("Accept", "application/vnd.github.v3+json"), ("Authorization", "T")] ∧
      (∀ (cs : List (Option String)) (T' : String), authAfter (cs ++ [some T']) = T')) := by
  have h : ∀ x ∈ [none, some "T"], x = none ∨ x = some ("T" : String) := by decide
  exact ⟨h, C9_shared_auth_header [some "A", none] [none, some "T"] "T" h⟩

/-- A world that differs from `w` only at the single URL `u0`. -/
def override (w : World) (u0 : String) (r : HttpResponse) : World :=
  fun v => if v = u0 then r else w v

/-- The URL of the starred listing endpoint for `login`. -/
def starredURL (login : String) : String :=
  pathJoin API_URL ("users/" ++ login ++ "/starred")

/-- The last character of a string, if any. -/
def lastCharOpt (s : String) : Option Char := s.data.reverse.head?

theorem lastChar_append (a b : String) (hb : b.data ≠ []) :
    lastCharOpt (a ++ b) = lastCharOpt b := by
  unfold lastCharOpt
  rw [String.data_append, List.reverse_append]
  cases hbr : b.data.reverse with
  | nil => exact absurd (List.reverse_eq_nil_iff.mp hbr) hb
  | cons c l => simp [hbr]

theorem lastChar_pathJoin (u stage : String) (h : stage.data ≠ []) :
    lastCharOpt (pathJoin u stage) = lastCharOpt stage := by
  unfold pathJoin
  split
  · rfl
  · split
    · exact lastChar_append u stage h
    · exact lastChar_append (u ++ "/") stage h

theorem lastChar_starredURL (login : String) : lastCharOpt (starredURL login) = some 'd' := by
  unfold starredURL
  rw [lastChar_pathJoin _ _ (by simp [String.data_append, List.append_eq_nil])]
  exact lastChar_append _ "/starred" (by decide)

theorem pathJoin_ne_starredURL (login u stage : String)
    (hs : lastCharOpt stage = some 's') (hne : stage.data ≠ []) :
    pathJoin u stage ≠ starredURL login := by
  intro he
  have hd := lastChar_starredURL login
  rw [← he, lastChar_pathJoin u stage hne, hs] at hd
  exact absurd (Option.some.inj hd) (by decide)

theorem response_override_ne (w : World) (u0 : String) (r : HttpResponse) (url stage : String)
    (h : pathJoin url stage ≠ u0) :
    response_ (override w u0 r) url stage = response_ w url stage := by
  simp [response_, override, h]

theorem api_request_repos_override (w : World) (login login' : String) (r : HttpResponse) :
    api_request (override w (starredURL login') r) login "repos" =
      api_request w login "repos" := by
  unfold api_request
  rw [response_override_ne _ _ _ _ _ (pathJoin_ne_starredURL login' API_URL
    ("users/" ++ login ++ "/" ++ "repos")
    (lastChar_append _ "repos" (by decide))
    (by simp [String.data_append, List.append_eq_nil]))]

theorem owner_repositories_override (w : World) (login login' : String) (r : HttpResponse)
    (uf : Bool) :
    owner_repositories (override w (starredURL login') r) login uf =
      owner_repositories w login uf := by
  simp [owner_repositories, api_request_repos_override]

theorem get_stargazers_override (w : World) (login' : String) (r : HttpResponse) (u : String) :
    get_stargazers (override w (starredURL login') r) u = get_stargazers w u := by
  unfold get_stargazers
  rw [response_override_ne _ _ _ _ _
    (pathJoin_ne_starredURL login' u "stargazers" rfl (by decide))]

theorem get_forks_override (w : World) (login' : String) (r : HttpResponse) (u : String) :
    get_forks (override w (starredURL login') r) u = get_forks w u := by
  unfold get_forks
  rw [response_override_ne _ _ _ _ _
    (pathJoin_ne_starredURL login' u "forks" rfl (by decide))]

theorem get_issues_override (w : World) (login' : String) (r : HttpResponse) (u : String) :
    get_issues (override w (starredURL login') r) u = get_issues w u := by
  unfold get_issues
  rw [response_override_ne _ _ _ _ _
    (pathJoin_ne_starredURL login' u "issues" rfl (by decide))]

theorem export_loop_congr (m1 m2 : String → Except PyErr Json)
    (h : ∀ u, m1 u = m2 u) (repos : List Json) (acc : List (String × Json)) :
    export_loop m1 repos acc = export_loop m2 repos acc := by
  induction repos generalizing acc with
  | nil => rfl
  | cons rj rest ih =>
    cases hr : rj.asString with
    | error e => simp [export_loop, hr]
    | ok u =>
      cases hm : m2 u with
      | error e => simp [export_loop, hr, h u, hm]
      | ok v => simp [export_loop, hr, h u, hm, ih]

/-- C10: the JSON metadata export reads only the owned-repository listing —
changing the starred listing's response arbitrarily cannot change its result,
for any destination and any world — while the zip downloader and the clone
invoker do reach the starred set when the starred flag is set (and the owned
set otherwise), as evaluated in the demonstration world. -/
theorem C10_export_uses_owned :
    (∀ (w : World) (r : HttpResponse) (login : String) (uf : Bool) (dest : String),
      save_list (override w (starredURL login) r) login uf dest =
        save_list w login uf dest) ∧
    (save_repos demoWorld "u" false "." false true fsEmpty).map
      (fun fs => (fs "./s.zip", fs "./o.zip")) = .ok (some [7], none) ∧
    (save_repos demoWorld "u" false "." false false fsEmpty).map
      (fun fs => (fs "./s.zip", fs "./o.zip")) = .ok (none, some [8]) ∧
    clone_repos demoWorld "u" none false "." false false true =
      .ok ["git clone r/s.git ./s"] := by
  refine ⟨?_, rfl, rfl, rfl⟩
  intro w r login uf dest
  unfold save_list
  by_cases h1 : dest = "stargazers"
  · subst h1
    rw [owner_repositories_override]
    cases howned : owner_repositories w login uf with
    | error e => rfl
    | ok repos =>
      simp [export_loop_congr _ _ (get_stargazers_override w login r) repos []]
  · by_cases h2 : dest = "forks"
    · subst h2
      rw [if_neg (by decide)]
      rw [owner_repositories_override]
      cases howned : owner_repositories w login uf with
      | error e => rfl
      | ok repos =>
        simp [export_loop_congr _ _ (get_forks_override w login r) repos []]
    · by_cases h3 : dest = "issues"
      · subst h3
        rw [if_neg (by decide), if_neg (by decide)]
        rw [owner_repositories_override]
        cases howned : owner_repositories w login uf with
        | error e => rfl
        | ok repos =>
          simp [export_loop_congr _ _ (get_issues_override w login r) repos []]
      · simp [h1, h2, h3]

end GithubBackup
